import Mathlib

/-!
Verification of the go-cmd-evt in-process command/event routing core.

The Go source is shallowly embedded:
* `reflect.Type` (the dispatch key derived from a value's concrete runtime
  type) becomes the inductive `TypeKey`; the Go pointer constructor `*T`
  is `TypeKey.ptr`, so a value type and its pointer-wrapped form are
  distinct keys, and `%T` formatting is `TypeKey.name`.
* Go maps become functions into `Option`; map insertion is a pointwise
  update; `append` on a slice stored in a map becomes list append with
  `getD []` for the missing-key zero value (nil slice).
* Command handlers `func(ctx, cmd) (any, error)` become pure functions
  `γ → Cmd → Option α × Option String` (`none` models Go's `nil`).
* Event handlers and the emitter's collaborators are effectful in Go, so
  they are embedded as explicit state transformers over an abstract state
  `σ`; sequencing of effects is sequencing of state passing.
* The sources of nondeterminism used by `NewBaseEvent` (the wall clock and
  `crypto/rand`) are supplied explicitly by a `World` record; a failing
  `rand.Read` is `World.randBytes = none`.
-/

namespace GoCmdEvt

/-- Embeds Go `reflect.Type` as used by this library: a named concrete
type, or a pointer to a type.  `reflect.TypeOf` on a value of type `T`
yields `named`, on `*T` it yields `ptr` of the former, so the two are
distinct dispatch keys. -/
inductive TypeKey : Type where
  | named : String → TypeKey
  | ptr : TypeKey → TypeKey
deriving DecidableEq, Repr

/-- The string `fmt.Errorf("... %T", cmd)` renders for a value of this
runtime type: the bare name for a named type, a `*` prefix per pointer. -/
def TypeKey.name : TypeKey → String
  | .named s => s
  | .ptr t => "*" ++ t.name

/-- A command value: Go's `Command` is the empty interface, so a command
is just a runtime type together with its (otherwise opaque) data. -/
structure Cmd : Type where
  key : TypeKey
  payload : Nat
deriving DecidableEq, Repr

/-- `type HandlerFunc func(ctx context.Context, cmd Command) (any, error)`:
`γ` is the context type, `Option α` the `any` result (`none` = Go `nil`),
`Option String` the error (`none` = Go `nil`). -/
def HandlerFunc (γ α : Type) : Type := γ → Cmd → Option α × Option String

/-- A module's `Handlers()` map, as the ordered list of insertions that
built it (a Go map literal / constructed map; lookup is `Module.lookup`). -/
def Module (γ α : Type) : Type := List (TypeKey × HandlerFunc γ α)

/-- `type App struct { handlers map[reflect.Type]HandlerFunc }`. -/
structure App (γ α : Type) : Type where
  handlers : TypeKey → Option (HandlerFunc γ α)

/-- Go map assignment `m[k] = h`. -/
def insertHandler {γ α : Type} (m : TypeKey → Option (HandlerFunc γ α))
    (k : TypeKey) (h : HandlerFunc γ α) : TypeKey → Option (HandlerFunc γ α) :=
  fun k' => if k' = k then some h else m k'

/-- The inner loop of `NewApp`:
`for typ, h := range m.Handlers() { app.handlers[typ] = h }`. -/
def registerModule {γ α : Type} (m : TypeKey → Option (HandlerFunc γ α))
    (M : Module γ α) : TypeKey → Option (HandlerFunc γ α) :=
  M.foldl (fun acc p => insertHandler acc p.1 p.2) m

/-- Lookup in the map a module exposes (the map built from its insertions). -/
def Module.lookup {γ α : Type} (M : Module γ α) (k : TypeKey) :
    Option (HandlerFunc γ α) :=
  registerModule (fun _ => none) M k

/-- `func NewApp(modules ...Module) *App`: start from an empty map and
insert every module's pairs, in module order, overwriting on collision.
Total: no error value exists on a key collision. -/
def NewApp {γ α : Type} (modules : List (Module γ α)) : App γ α :=
  { handlers := modules.foldl registerModule (fun _ => none) }

/-- `func (a *App) Handle(ctx context.Context, cmd Command) (any, error)`:
look up the command's runtime type; if absent return
`(nil, fmt.Errorf("no handler for command type: %T", cmd))`, otherwise
return the handler's own result and error unchanged. -/
def App.Handle {γ α : Type} (a : App γ α) (ctx : γ) (cmd : Cmd) :
    Option α × Option String :=
  match a.handlers cmd.key with
  | some handler => handler ctx cmd
  | none => (none, some ("no handler for command type: " ++ cmd.key.name))

/-- Written from the spec's words, to be compared with `NewApp`: the
active handler for a key is the one of the last module in the list that
registers that key ("the last module in the list wins ties"). -/
def specLastModuleWins {γ α : Type} (modules : List (Module γ α))
    (k : TypeKey) : Option (HandlerFunc γ α) :=
  modules.reverse.findSome? (fun M => Module.lookup M k)

/-- An event value as the dispatchers see it: its concrete runtime type
(the dispatch key `reflect.TypeOf(event)`) and its otherwise opaque data. -/
structure Evt : Type where
  key : TypeKey
  payload : Nat
deriving DecidableEq, Repr

/-- `type EventHandlerFunc func(ctx context.Context, cmd Event) (any, error)`:
effectful in Go, so embedded as a transformer of an abstract state `σ`
that also yields the `(any, error)` return pair. -/
def EventHandlerFunc (σ γ α : Type) : Type :=
  σ → γ → Evt → σ × (Option α × Option String)

/-- `handlers map[reflect.Type][]EventHandlerFunc` of `InMemoryDispatcher`
(`none` = key absent from the map). -/
def DispatcherState (σ γ α : Type) : Type :=
  TypeKey → Option (List (EventHandlerFunc σ γ α))

namespace InMemoryDispatcher

/-- `func (d *InMemoryDispatcher) Subscribe(event Event, handler EventHandlerFunc)`:
`d.handlers[t] = append(d.handlers[t], handler)` — indexing a missing key
yields the zero value (nil slice), so the appended-to list is `getD []`. -/
def Subscribe {σ γ α : Type} (d : DispatcherState σ γ α) (event : Evt)
    (handler : EventHandlerFunc σ γ α) : DispatcherState σ γ α :=
  fun k =>
    if k = event.key then some ((d event.key).getD [] ++ [handler]) else d k

/-- `func (d *InMemoryDispatcher) DispatchCtx(ctx context.Context, event Event)`:
if a subscriber list exists for the event's type, call each handler in
slice order with `(ctx, event)`, discarding its `(any, error)` return;
otherwise do nothing.  The threaded `σ` carries the handlers' effects;
the function returns no error value. -/
def DispatchCtx {σ γ α : Type} (d : DispatcherState σ γ α) (ctx : γ)
    (event : Evt) (s : σ) : σ :=
  match d event.key with
  | some handlers => handlers.foldl (fun st h => (h st ctx event).1) s
  | none => s

/-- Iterated `Subscribe`, one call per `(event, handler)` pair in order;
used to speak about every dispatcher state reachable by subscriptions. -/
def subscribeAll {σ γ α : Type} (d : DispatcherState σ γ α)
    (subs : List (Evt × EventHandlerFunc σ γ α)) : DispatcherState σ γ α :=
  subs.foldl (fun acc p => Subscribe acc p.1 p.2) d

end InMemoryDispatcher

/-- `type EventEmitter struct { LogWriter EventLogWriter; Dispatcher Dispatcher }`:
the two collaborators, embedded as state transformers.  `LogWriter` is
`Write(event) error` (state effect plus returned error); `Dispatcher` is
`Dispatch(ctx, event)` (state effect, no return). -/
structure EventEmitter (σ γ : Type) : Type where
  LogWriter : σ → Evt → σ × Option String
  Dispatcher : σ → γ → Evt → σ

/-- `func (e *EventEmitter) Emit(ctx context.Context, event Event)`:
call `LogWriter.Write(event)`; if it errs, report
`log.Printf("audit log failed: %v", err)` (the returned list of report
lines) but continue; then call `Dispatcher.Dispatch(ctx, event)` on the
state the write left behind.  `Emit` itself returns no error. -/
def EventEmitter.Emit {σ γ : Type} (e : EventEmitter σ γ) (ctx : γ)
    (event : Evt) (s : σ) : σ × List String :=
  let w := e.LogWriter s event
  let reported :=
    match w.2 with
    | some err => ["audit log failed: " ++ err]
    | none => []
  (e.Dispatcher w.1 ctx event, reported)

/-- A Go `time.Time` value as this library observes it: an instant on the
wall clock plus the location the value is expressed in.  `time.Now()`
carries the local location; `.UTC()` re-expresses the same instant in UTC. -/
structure GoTime : Type where
  instant : Nat
  loc : String
deriving DecidableEq, Repr

/-- `t.UTC()`: same instant, location set to UTC. -/
def GoTime.utc (t : GoTime) : GoTime := { instant := t.instant, loc := "UTC" }

/-- Models Go `t.Format("20060102150405")`: a decimal rendering determined
by the instant alone (the exact digit grouping is irrelevant to the claims;
what matters is that it is a function of the timestamp). -/
def formatTimestamp (t : GoTime) : String := Nat.repr t.instant

/-- The nondeterministic inputs one `NewBaseEvent` call consumes: the
current wall-clock time and the outcome of `rand.Read` on a fresh 16-byte
buffer (`some bytes` on success, `none` when the randomness source fails). -/
structure World : Type where
  now : GoTime
  randBytes : Option (List Nat)
deriving DecidableEq, Repr

/-- The lowercase hex digit for a nibble, as `encoding/hex` uses
(`Nat.digitChar` renders `0`–`15` as `0`–`9`, `a`–`f`). -/
def hexDigit (n : Nat) : Char := Nat.digitChar n

/-- The character stream of `hex.EncodeToString`: two lowercase hex digits
per byte, high nibble first. -/
def hexChars (bytes : List Nat) : List Char :=
  bytes.flatMap (fun b => [hexDigit (b / 16), hexDigit (b % 16)])

/-- `hex.EncodeToString(bytes)`. -/
def hexEncodeToString (bytes : List Nat) : String := String.mk (hexChars bytes)

/-- `func generateEventID() string`: on `rand.Read` success, the hex
encoding of the 16 random bytes; on failure, the timestamp-derived
fallback `time.Now().Format("20060102150405") + "-" + time.Now().Format("000000")`
(the layout `"000000"` contains no reference-time components, so Go
renders it literally as `000000`). -/
def generateEventID (w : World) : String :=
  match w.randBytes with
  | some bytes => hexEncodeToString bytes
  | none => formatTimestamp w.now ++ "-" ++ "000000"

/-- `type BaseEvent struct { ID; Type; Time; Aggregate; Version }`. -/
structure BaseEvent : Type where
  ID : String
  «Type» : String
  Time : GoTime
  Aggregate : String
  Version : Int
deriving DecidableEq, Repr

/-- `func NewBaseEvent(eventType, aggregateID string, version int) BaseEvent`:
fresh id from `generateEventID`, `time.Now().UTC()` timestamp, and the
given type/aggregate/version.  Total — no error return. -/
def NewBaseEvent (w : World) (eventType aggregateID : String) (version : Int) :
    BaseEvent :=
  { ID := generateEventID w
    «Type» := eventType
    Time := w.now.utc
    Aggregate := aggregateID
    Version := version }

def BaseEvent.EventID (e : BaseEvent) : String := e.ID

def BaseEvent.EventType (e : BaseEvent) : String := e.«Type»

def BaseEvent.EventTime (e : BaseEvent) : GoTime := e.Time

def BaseEvent.AggregateID (e : BaseEvent) : String := e.Aggregate

def BaseEvent.EventVersion (e : BaseEvent) : Int := e.Version

/-! Concrete instances used by the witness theorems. -/

def wKey : TypeKey := TypeKey.ptr (TypeKey.named "gocmdevt.CreateUserCommand")

def wHandlerA : HandlerFunc Unit Nat := fun _ _ => (some 1, none)

def wHandlerB : HandlerFunc Unit Nat := fun _ _ => (some 2, none)

def wModule1 : Module Unit Nat := [(wKey, wHandlerA)]

def wModule2 : Module Unit Nat := [(wKey, wHandlerB)]

def wEmptyApp : App Unit Nat := { handlers := fun _ => none }

def wRegisteredApp : App Unit Nat := NewApp [wModule1]

def wCmd : Cmd := { key := wKey, payload := 0 }

def wDispEmpty : DispatcherState Nat Unit Unit := fun _ => none

def wEvt : Evt := { key := TypeKey.named "OrderCreatedEvent", payload := 0 }

def wEvtHandler1 : EventHandlerFunc Nat Unit Unit :=
  fun s _ _ => (s + 1, (none, some "boom"))

def wEvtHandler2 : EventHandlerFunc Nat Unit Unit :=
  fun s _ _ => (s * 10, (none, none))

def wFallbackWorld : World :=
  { now := { instant := 20240101120000, loc := "Local" }, randBytes := none }

def wBytes1 : List Nat := List.replicate 16 0

def wBytes2 : List Nat := 1 :: List.replicate 15 0

def wRandWorld1 : World :=
  { now := { instant := 20240101120000, loc := "Local" }, randBytes := some wBytes1 }

def wRandWorld2 : World :=
  { now := { instant := 20240101120001, loc := "Local" }, randBytes := some wBytes2 }

/-! Helper lemmas. -/

theorem registerModule_lookup {γ α : Type} (M : Module γ α)
    (m : TypeKey → Option (HandlerFunc γ α)) (k : TypeKey) :
    registerModule m M k =
      match Module.lookup M k with
      | some h => some h
      | none => m k := by
  induction M generalizing m with
  | nil => simp [registerModule, Module.lookup]
  | cons p M ih =>
    show registerModule (insertHandler m p.1 p.2) M k = _
    rw [ih]
    show _ = match registerModule (insertHandler (fun _ => none) p.1 p.2) M k with
      | some h => some h
      | none => m k
    rw [ih]
    by_cases hk : k = p.1
    · cases hM : Module.lookup M k <;>
        simp [hM, insertHandler, hk]
    · cases hM : Module.lookup M k <;>
        simp [hM, insertHandler, hk]

theorem newApp_foldl_lookup {γ α : Type} (modules : List (Module γ α))
    (m : TypeKey → Option (HandlerFunc γ α)) (k : TypeKey) :
    modules.foldl registerModule m k =
      match specLastModuleWins modules k with
      | some h => some h
      | none => m k := by
  induction modules generalizing m with
  | nil => simp [specLastModuleWins]
  | cons M modules ih =>
    show modules.foldl registerModule (registerModule m M) k = _
    rw [ih]
    simp only [specLastModuleWins, List.reverse_cons, List.findSome?_append]
    cases hM : List.findSome? (fun M => Module.lookup M k) modules.reverse with
    | some h => simp [hM]
    | none =>
      simp only [hM, registerModule_lookup, Option.orElse_none, Option.none_orElse]
      simp [List.findSome?]
      cases Module.lookup M k <;> simp

theorem TypeKey.ptr_ne (k : TypeKey) : TypeKey.ptr k ≠ k := by
  induction k with
  | named s => intro h; cases h
  | ptr t ih => intro h; exact ih (TypeKey.ptr.inj h)

namespace InMemoryDispatcher

theorem dispatchCtx_eq_foldl {σ γ α : Type} (d : DispatcherState σ γ α)
    (ctx : γ) (event : Evt) (s : σ) :
    DispatchCtx d ctx event s =
      ((d event.key).getD []).foldl (fun st h => (h st ctx event).1) s := by
  unfold DispatchCtx
  cases d event.key <;> simp

theorem subscribeAll_getD {σ γ α : Type}
    (subs : List (Evt × EventHandlerFunc σ γ α))
    (d : DispatcherState σ γ α) (k : TypeKey) :
    ((subscribeAll d subs) k).getD [] =
      (d k).getD [] ++
        (subs.filter (fun p => decide (p.1.key = k))).map Prod.snd := by
  induction subs generalizing d with
  | nil => simp [subscribeAll]
  | cons p subs ih =>
    show ((subscribeAll (Subscribe d p.1 p.2) subs) k).getD [] = _
    rw [ih]
    by_cases hk : p.1.key = k
    · subst hk
      simp [Subscribe, List.filter]
    · simp [Subscribe, List.filter, hk, Ne.symm hk]

end InMemoryDispatcher

theorem hexDigit_inj (a b : Nat) (ha : a < 16) (hb : b < 16)
    (h : hexDigit a = hexDigit b) : a = b := by
  have key : ∀ a' b' : Fin 16, hexDigit a'.val = hexDigit b'.val → a'.val = b'.val := by
    decide
  exact key ⟨a, ha⟩ ⟨b, hb⟩ h

theorem hexChars_inj (bs1 : List Nat) : ∀ (bs2 : List Nat),
    (∀ b ∈ bs1, b < 256) → (∀ b ∈ bs2, b < 256) →
    hexChars bs1 = hexChars bs2 → bs1 = bs2 := by
  induction bs1 with
  | nil =>
    intro bs2 _ _ h
    cases bs2 with
    | nil => rfl
    | cons b t => simp [hexChars] at h
  | cons a t1 ih =>
    intro bs2 h1 h2 h
    cases bs2 with
    | nil => simp [hexChars] at h
    | cons b t2 =>
      simp only [hexChars, List.flatMap_cons, List.cons_append,
        List.nil_append, List.cons.injEq] at h
      obtain ⟨hhi, hlo, htail⟩ := h
      have ha : a < 256 := h1 a (List.mem_cons_self a t1)
      have hb : b < 256 := h2 b (List.mem_cons_self b t2)
      have hdiv : a / 16 = b / 16 :=
        hexDigit_inj _ _ (Nat.div_lt_of_lt_mul ha) (Nat.div_lt_of_lt_mul hb) hhi
      have hmod : a % 16 = b % 16 :=
        hexDigit_inj _ _ (Nat.mod_lt a (by norm_num)) (Nat.mod_lt b (by norm_num)) hlo
      have hab : a = b := by
        have := Nat.div_add_mod a 16
        have := Nat.div_add_mod b 16
        omega
      have ht : t1 = t2 :=
        ih t2 (fun x hx => h1 x (List.mem_cons_of_mem a hx))
          (fun x hx => h2 x (List.mem_cons_of_mem b hx)) htail
      rw [hab, ht]

theorem hexEncodeToString_inj (bs1 bs2 : List Nat)
    (h1 : ∀ b ∈ bs1, b < 256) (h2 : ∀ b ∈ bs2, b < 256)
    (h : hexEncodeToString bs1 = hexEncodeToString bs2) : bs1 = bs2 :=
  hexChars_inj bs1 bs2 h1 h2 (congrArg String.data h)

theorem hexEncodeToString_ne_empty (bs : List Nat) (hne : bs ≠ []) :
    hexEncodeToString bs ≠ "" := by
  intro h
  have hd : hexChars bs = [] := congrArg String.data h
  cases bs with
  | nil => exact hne rfl
  | cons b t => simp [hexChars] at hd

theorem fallback_id_ne_empty (t : GoTime) :
    formatTimestamp t ++ "-" ++ "000000" ≠ "" := by
  intro h
  have h2 := congrArg String.data h
  simp [String.data_append] at h2

/-! Claim theorems. -/

/-- C1: router override is last-registration-wins.  `NewApp` builds the
handler map by inserting each module's pairs in module-list order with
overwrite, so for every module list the active handler of a key is that
of the last module registering it (`specLastModuleWins`), and when two
modules `M1`, `M2` both register a key, build order `[M1, M2]` leaves
`M2`'s handler active and `[M2, M1]` leaves `M1`'s.  `NewApp` is total:
no error is raised on the collision. -/
theorem newApp_last_registration_wins {γ α : Type} (modules : List (Module γ α))
    (k : TypeKey) (M1 M2 : Module γ α) (h1 h2 : HandlerFunc γ α)
    (hm1 : Module.lookup M1 k = some h1) (hm2 : Module.lookup M2 k = some h2) :
    (NewApp modules).handlers k = specLastModuleWins modules k ∧
    (NewApp [M1, M2]).handlers k = some h2 ∧
    (NewApp [M2, M1]).handlers k = some h1 := by
  refine ⟨?_, ?_, ?_⟩
  · show modules.foldl registerModule (fun _ => none) k = _
    rw [newApp_foldl_lookup]
    cases specLastModuleWins modules k <;> simp
  · show List.foldl registerModule (fun _ => none) [M1, M2] k = some h2
    rw [newApp_foldl_lookup]
    simp [specLastModuleWins, List.findSome?, hm2]
  · show List.foldl registerModule (fun _ => none) [M2, M1] k = some h1
    rw [newApp_foldl_lookup]
    simp [specLastModuleWins, List.findSome?, hm1]

/-- Witness for C1 at concrete modules both registering `wKey`. -/
theorem newApp_last_registration_wins_witness :
    (NewApp [wModule1, wModule2]).handlers wKey = some wHandlerB ∧
    (NewApp [wModule2, wModule1]).handlers wKey = some wHandlerA :=
  ⟨(newApp_last_registration_wins [] wKey wModule1 wModule2 wHandlerA wHandlerB
      rfl rfl).2.1,
   (newApp_last_registration_wins [] wKey wModule1 wModule2 wHandlerA wHandlerB
      rfl rfl).2.2⟩

/-- C2: dispatching a command whose `TypeKey` has no registered handler
returns a `nil` result together with the error
`no handler for command type: <concrete type name>`, and invokes no
handler — the outcome is a constant, identical for every router state in
which the key is unregistered, so no registered handler's behaviour can
reach it. -/
theorem handle_unregistered_error {γ α : Type} (a : App γ α) (ctx : γ)
    (cmd : Cmd) (h : a.handlers cmd.key = none) :
    a.Handle ctx cmd =
      (none, some ("no handler for command type: " ++ cmd.key.name)) ∧
    ∀ (a' : App γ α), a'.handlers cmd.key = none →
      a'.Handle ctx cmd = a.Handle ctx cmd := by
  constructor
  · simp [App.Handle, h]
  · intro a' h'
    simp [App.Handle, h, h']

/-- Witness for C2: an empty router rejects a `DeleteX` command with the
exact error text. -/
theorem handle_unregistered_error_witness :
    wEmptyApp.Handle () { key := TypeKey.named "gocmdevt.DeleteX", payload := 0 } =
      (none, some ("no handler for command type: " ++
        TypeKey.name (TypeKey.named "gocmdevt.DeleteX"))) :=
  (handle_unregistered_error wEmptyApp ()
    { key := TypeKey.named "gocmdevt.DeleteX", payload := 0 } rfl).1

/-- C3: dispatch is a pure pass-through.  When the command's `TypeKey`
resolves to a handler, `Handle` returns exactly that handler's value on
`(ctx, cmd)` — one invocation, result and error unmodified. -/
theorem handle_passthrough {γ α : Type} (a : App γ α) (ctx : γ) (cmd : Cmd)
    (handler : HandlerFunc γ α) (hreg : a.handlers cmd.key = some handler) :
    a.Handle ctx cmd = handler ctx cmd := by
  simp [App.Handle, hreg]

/-- Witness for C3: the registered handler's own pair comes back verbatim. -/
theorem handle_passthrough_witness :
    wRegisteredApp.Handle () wCmd = (some 1, none) :=
  (handle_passthrough wRegisteredApp () wCmd wHandlerA rfl).trans rfl

/-- C4: log-then-dispatch ordering with non-fatal log failure.  `Emit`
applies the log-writer's `Write` exactly once to the incoming state, and
the dispatcher (hence every subscriber) runs on the state the completed
write left behind — whether or not `Write` returned an error, so a failed
write never suppresses fan-out; the failure is only reported as a log
line.  The last clause instantiates the dispatcher collaborator with the
concrete `InMemoryDispatcher`: each subscriber's fold starts from the
post-write state. -/
theorem emit_log_then_dispatch {σ γ : Type} (e : EventEmitter σ γ) (ctx : γ)
    (event : Evt) (s : σ) :
    (e.Emit ctx event s).1 = e.Dispatcher (e.LogWriter s event).1 ctx event ∧
    (e.Emit ctx event s).2 =
      (match (e.LogWriter s event).2 with
        | some err => ["audit log failed: " ++ err]
        | none => ([] : List String)) ∧
    ∀ (α : Type) (d : DispatcherState σ γ α) (lw : σ → Evt → σ × Option String),
      ((EventEmitter.mk lw
          (fun st c evt => InMemoryDispatcher.DispatchCtx d c evt st)).Emit
            ctx event s).1 =
        ((d event.key).getD []).foldl (fun st h => (h st ctx event).1)
          (lw s event).1 := by
  refine ⟨rfl, rfl, ?_⟩
  intro α d lw
  exact InMemoryDispatcher.dispatchCtx_eq_foldl d ctx event (lw s event).1

/-- C5: fan-out order and silent no-op.  `DispatchCtx` is the sequential
left fold of the key's subscriber list (so an absent list means the state
is returned untouched, with no error — the `σ` result is the only output),
and on a dispatcher built by any sequence of `Subscribe` calls the fold
runs over the pre-existing subscribers followed by the newly subscribed
handlers of that key in subscription order, each invoked once with
`(ctx, event)` on the state its predecessor produced. -/
theorem dispatchCtx_fanout_order {σ γ α : Type} (d : DispatcherState σ γ α)
    (subs : List (Evt × EventHandlerFunc σ γ α)) (ctx : γ) (event : Evt) (s : σ) :
    InMemoryDispatcher.DispatchCtx d ctx event s =
      ((d event.key).getD []).foldl (fun st h => (h st ctx event).1) s ∧
    InMemoryDispatcher.DispatchCtx (InMemoryDispatcher.subscribeAll d subs)
        ctx event s =
      ((d event.key).getD [] ++
          (subs.filter (fun p => decide (p.1.key = event.key))).map Prod.snd).foldl
        (fun st h => (h st ctx event).1) s := by
  constructor
  · exact InMemoryDispatcher.dispatchCtx_eq_foldl d ctx event s
  · rw [InMemoryDispatcher.dispatchCtx_eq_foldl,
      InMemoryDispatcher.subscribeAll_getD]

/-- C6: fan-out failure isolation.  With `H1` then `H2` subscribed for the
event's key on top of any prior dispatcher state, and `H1` returning a
non-nil error, the fan-out still invokes `H2` with the same `(ctx, event)`
on the state `H1` produced (`DispatchCtx d ctx event s` being the state
after the pre-existing subscribers ran): `H1`'s error aborts nothing. -/
theorem dispatchCtx_failure_isolation {σ γ α : Type} (d : DispatcherState σ γ α)
    (event : Evt) (H1 H2 : EventHandlerFunc σ γ α) (ctx : γ) (s : σ)
    (herr : (H1 (InMemoryDispatcher.DispatchCtx d ctx event s) ctx event).2.2 ≠ none) :
    InMemoryDispatcher.DispatchCtx
        (InMemoryDispatcher.Subscribe
          (InMemoryDispatcher.Subscribe d event H1) event H2) ctx event s =
      (H2 (H1 (InMemoryDispatcher.DispatchCtx d ctx event s) ctx event).1
        ctx event).1 := by
  have hsub :
      InMemoryDispatcher.Subscribe
          (InMemoryDispatcher.Subscribe d event H1) event H2 =
        InMemoryDispatcher.subscribeAll d [(event, H1), (event, H2)] := rfl
  rw [hsub, InMemoryDispatcher.dispatchCtx_eq_foldl,
    InMemoryDispatcher.subscribeAll_getD,
    InMemoryDispatcher.dispatchCtx_eq_foldl]
  simp [List.foldl_append, List.filter]

/-- Witness for C6: `H1` errs ("boom") yet `H2` still runs on `H1`'s
output state: starting from state `0`, `H1` yields `1` and `H2` yields
`10`. -/
theorem dispatchCtx_failure_isolation_witness :
    InMemoryDispatcher.DispatchCtx
        (InMemoryDispatcher.Subscribe
          (InMemoryDispatcher.Subscribe wDispEmpty wEvt wEvtHandler1)
          wEvt wEvtHandler2) () wEvt 0 = 10 :=
  (dispatchCtx_failure_isolation wDispEmpty wEvt wEvtHandler1 wEvtHandler2 () 0
    (by simp [wEvtHandler1, InMemoryDispatcher.DispatchCtx, wDispEmpty])).trans rfl

/-- C7: pointer/value type identity.  A named command type and its
pointer-wrapped form are distinct `TypeKey`s; a router whose single module
registers only the pointer form rejects the value form with the
unregistered-command error (and vice versa, the error naming the
`*`-prefixed type), while dispatch of the exactly matching form resolves
to the registered handler. -/
theorem ptr_value_typekey_distinct {γ α : Type} (k : TypeKey)
    (h : HandlerFunc γ α) (ctx : γ) (p : Nat) :
    TypeKey.ptr k ≠ k ∧
    (NewApp [[(TypeKey.ptr k, h)]]).Handle ctx { key := k, payload := p } =
      (none, some ("no handler for command type: " ++ k.name)) ∧
    (NewApp [[(k, h)]]).Handle ctx { key := TypeKey.ptr k, payload := p } =
      (none, some ("no handler for command type: " ++ ("*" ++ k.name))) ∧
    (NewApp [[(TypeKey.ptr k, h)]]).Handle ctx
        { key := TypeKey.ptr k, payload := p } =
      h ctx { key := TypeKey.ptr k, payload := p } := by
  refine ⟨TypeKey.ptr_ne k, ?_, ?_, ?_⟩
  · have hmiss : (NewApp [[(TypeKey.ptr k, h)]]).handlers k = none := by
      show insertHandler (fun _ => none) (TypeKey.ptr k) h k = none
      simp [insertHandler, Ne.symm (TypeKey.ptr_ne k)]
    simp [App.Handle, hmiss, TypeKey.name]
  · have hmiss : (NewApp [[(k, h)]]).handlers (TypeKey.ptr k) = none := by
      show insertHandler (fun _ => none) k h (TypeKey.ptr k) = none
      simp [insertHandler, TypeKey.ptr_ne k]
    simp [App.Handle, hmiss, TypeKey.name]
  · have hhit : (NewApp [[(TypeKey.ptr k, h)]]).handlers (TypeKey.ptr k) = some h := by
      show insertHandler (fun _ => none) (TypeKey.ptr k) h (TypeKey.ptr k) = some h
      simp [insertHandler]
    simp [App.Handle, hhit]

/-- C8: event construction never fails.  `NewBaseEvent` is a total
function (no error value in its type): its `Type`, `Aggregate` and
`Version` fields equal the given arguments, its `Time` is the current
instant re-expressed in UTC, and when the randomness source fails
(`randBytes = none`) the ID falls back to the timestamp-derived string
instead of aborting construction. -/
theorem newBaseEvent_fields (w : World) (eventType aggregateID : String)
    (version : Int) :
    (NewBaseEvent w eventType aggregateID version).«Type» = eventType ∧
    (NewBaseEvent w eventType aggregateID version).Aggregate = aggregateID ∧
    (NewBaseEvent w eventType aggregateID version).Version = version ∧
    (NewBaseEvent w eventType aggregateID version).Time = w.now.utc ∧
    (NewBaseEvent w eventType aggregateID version).Time.loc = "UTC" ∧
    (w.randBytes = none →
      (NewBaseEvent w eventType aggregateID version).ID =
        formatTimestamp w.now ++ "-" ++ "000000") := by
  refine ⟨rfl, rfl, rfl, rfl, rfl, ?_⟩
  intro hrand
  simp [NewBaseEvent, generateEventID, hrand]

/-- Witness for C8: a world whose randomness source fails still yields an
event, with the timestamp-derived ID and the given metadata. -/
theorem newBaseEvent_fields_witness :
    (NewBaseEvent wFallbackWorld "student_created" "student-123" 1).ID =
      formatTimestamp wFallbackWorld.now ++ "-" ++ "000000" :=
  (newBaseEvent_fields wFallbackWorld "student_created" "student-123" 1).2.2.2.2.2
    rfl

/-- C9: event ID non-emptiness and per-emission uniqueness.  Every
constructed event's `EventID()` is non-empty — on the random path because
the 16-byte buffer hex-encodes to 32 characters, on the fallback path
because the timestamp string is non-empty — and two emissions whose
`rand.Read` calls filled their 16-byte buffers with different bytes have
different IDs (`hex.EncodeToString` is injective on byte strings).
Uniqueness is claimed only for the random path; the timestamp fallback is
best-effort and no uniqueness is asserted for it. -/
theorem eventID_nonempty_unique (t a : String) (v : Int) (w1 w2 : World)
    (bs1 bs2 : List Nat)
    (h1 : w1.randBytes = some bs1) (h2 : w2.randBytes = some bs2)
    (hl1 : bs1.length = 16) (hl2 : bs2.length = 16)
    (hb1 : ∀ b ∈ bs1, b < 256) (hb2 : ∀ b ∈ bs2, b < 256)
    (hne : bs1 ≠ bs2) :
    (NewBaseEvent w1 t a v).EventID ≠ "" ∧
    (NewBaseEvent w2 t a v).EventID ≠ "" ∧
    (NewBaseEvent w1 t a v).EventID ≠ (NewBaseEvent w2 t a v).EventID ∧
    (∀ w : World, w.randBytes = none → (NewBaseEvent w t a v).EventID ≠ "") := by
  have hid1 : (NewBaseEvent w1 t a v).EventID = hexEncodeToString bs1 := by
    simp [NewBaseEvent, BaseEvent.EventID, generateEventID, h1]
  have hid2 : (NewBaseEvent w2 t a v).EventID = hexEncodeToString bs2 := by
    simp [NewBaseEvent, BaseEvent.EventID, generateEventID, h2]
  refine ⟨?_, ?_, ?_, ?_⟩
  · rw [hid1]
    exact hexEncodeToString_ne_empty bs1 (by intro hnil; simp [hnil] at hl1)
  · rw [hid2]
    exact hexEncodeToString_ne_empty bs2 (by intro hnil; simp [hnil] at hl2)
  · rw [hid1, hid2]
    intro heq
    exact hne (hexEncodeToString_inj bs1 bs2 hb1 hb2 heq)
  · intro w hrand
    have hid : (NewBaseEvent w t a v).EventID =
        formatTimestamp w.now ++ "-" ++ "000000" := by
      simp [NewBaseEvent, BaseEvent.EventID, generateEventID, hrand]
    rw [hid]
    exact fallback_id_ne_empty w.now

/-- Witness for C9: two emissions whose 16 random bytes differ in the
first byte get distinct IDs. -/
theorem eventID_nonempty_unique_witness :
    (NewBaseEvent wRandWorld1 "OrderCreated" "order-1" 1).EventID ≠
      (NewBaseEvent wRandWorld2 "OrderCreated" "order-1" 1).EventID :=
  (eventID_nonempty_unique "OrderCreated" "order-1" 1 wRandWorld1 wRandWorld2
    wBytes1 wBytes2 rfl rfl (by decide) (by decide) (by decide) (by decide)
    (by decide)).2.2.1

/-- C10: `Subscribe` has a frame property.  Subscribing a handler appends
it at the end of the subscriber list of the event's key (creating the
list when the key was absent) and leaves the list of every other key
exactly unchanged. -/
theorem subscribe_frame {σ γ α : Type} (d : DispatcherState σ γ α)
    (event : Evt) (handler : EventHandlerFunc σ γ α) :
    (InMemoryDispatcher.Subscribe d event handler) event.key =
      some ((d event.key).getD [] ++ [handler]) ∧
    ∀ k : TypeKey, k ≠ event.key →
      (InMemoryDispatcher.Subscribe d event handler) k = d k := by
  constructor
  · simp [InMemoryDispatcher.Subscribe]
  · intro k hk
    simp [InMemoryDispatcher.Subscribe, hk]

/-- Witness for C10: subscribing on an empty dispatcher creates the
singleton list for the event's key and leaves another key absent. -/
theorem subscribe_frame_witness :
    (InMemoryDispatcher.Subscribe wDispEmpty wEvt wEvtHandler1) wEvt.key =
      some [wEvtHandler1] ∧
    (InMemoryDispatcher.Subscribe wDispEmpty wEvt wEvtHandler1)
      (TypeKey.named "PaymentProcessedEvent") = none :=
  ⟨((subscribe_frame wDispEmpty wEvt wEvtHandler1).1).trans rfl,
   (subscribe_frame wDispEmpty wEvt wEvtHandler1).2
     (TypeKey.named "PaymentProcessedEvent") (by decide)⟩

end GoCmdEvt
